import Mathlib

/-
  Verification of the LlamaPack code-embedding store and embedder.

  Shallow embedding of:
    - src/app/src/lancedb/schema.rs        (table schema, EMBEDDING_DIM)
    - src/app/src/lancedb/lancedb_client.rs (record mapper + store operations)
    - src/app/src/embedder.rs              (tensor preparation and output flattening)

  Modelling conventions:
    - f32 values are carried opaquely as bit patterns (Nat); the code under
      verification never computes with the floats, it only moves them between
      records and columnar arrays, so bit-pattern identity is the right notion
      of round-trip equality.
    - i16 / i64 / i32 values are modelled as Int; no arithmetic is ever
      performed on them in the modelled code, they are only stored and read.
    - Arrow arrays are modelled by an inductive with one constructor per array
      kind the mapper constructs; a downcast in the Rust code succeeds exactly
      when the constructor matches.
    - The storage engine (LanceDB) is external to the repository.  Its
      behaviour is modelled where a claim needs it: reads yield a stream
      (a finite list) of record batches; filters are applied to the stored
      rows; a filter string of the form  path = <quoted literal>  is parsed
      with standard SQL single-quoted-literal semantics (two quotes inside a
      literal denote one literal quote character).
-/

set_option maxRecDepth 100000

deriving instance DecidableEq for Except

/-- f32 bit patterns, carried opaquely. -/
abbrev F32 := Nat

/-- Mirror of arrow_schema::DataType restricted to the constructors used in
schema.rs and lancedb_client.rs.  Nested list types carry their child field
inline (name, type, nullability), as arrow does via Field. -/
inductive ADataType where
  | utf8
  | float32
  | int16
  | timestampMicrosecond
  | fixedSizeList (childName : String) (childType : ADataType) (childNullable : Bool) (size : Int)
  | listType (childName : String) (childType : ADataType) (childNullable : Bool)
  deriving DecidableEq

/-- Mirror of arrow_schema::Field: a named, typed, nullability-flagged column. -/
structure AField where
  name : String
  dtype : ADataType
  nullable : Bool
  deriving DecidableEq

/-- Mirror of EMBEDDING_DIM in schema.rs (an i32 constant). -/
def EMBEDDING_DIM : Int := 768

/-- Mirror of build_embeddings_schema in schema.rs.  Transcribed field by
field from the source: it declares eight columns and does not declare a
content_preview column; the embedding child field is declared non-nullable. -/
def build_embeddings_schema : List AField :=
  [ ⟨"path", .utf8, false⟩,
    ⟨"hash", .utf8, false⟩,
    ⟨"embedding", .fixedSizeList "item" .float32 false EMBEDDING_DIM, false⟩,
    ⟨"language", .utf8, false⟩,
    ⟨"last_modified", .timestampMicrosecond, false⟩,
    ⟨"last_accessed", .timestampMicrosecond, false⟩,
    ⟨"line_count", .int16, false⟩,
    ⟨"imported_by", .listType "item" .utf8 false, false⟩ ]

/-- Mirror of the EmbeddingRecord struct in lancedb_client.rs. -/
structure EmbeddingRecord where
  path : String
  hash : String
  embedding : List F32
  language : String
  last_modified : Int
  last_accessed : Int
  line_count : Int
  imported_by : List String
  content_preview : Option String
  deriving DecidableEq

/-- Mirror of the arrow array values the mapper builds.  A StringArray holds
optional values (a None entry is a null slot); arrays built from plain
strings simply contain no None entries. -/
inductive ArrowArray where
  | stringArr (vals : List (Option String))
  | fixedSizeListF32 (childNullable : Bool) (size : Int) (values : List F32)
  | timestampArr (vals : List Int)
  | int16Arr (vals : List Int)
  | listUtf8 (childNullable : Bool) (offsets : List Int) (values : List String)
  deriving DecidableEq

/-- The arrow DataType of each array, as arrow reports it (nested child
fields included, since they take part in schema equality checks). -/
def arrayDataType : ArrowArray → ADataType
  | .stringArr _ => .utf8
  | .fixedSizeListF32 n sz _ => .fixedSizeList "item" .float32 n sz
  | .timestampArr _ => .timestampMicrosecond
  | .int16Arr _ => .int16
  | .listUtf8 n _ _ => .listType "item" .utf8 n

/-- Row count of an arrow array. -/
def arrayNumRows : ArrowArray → Nat
  | .stringArr vals => vals.length
  | .fixedSizeListF32 _ sz values => values.length / sz.toNat
  | .timestampArr vals => vals.length
  | .int16Arr vals => vals.length
  | .listUtf8 _ offsets _ => offsets.length - 1

/-- Whether an array contains a null slot.  Only the StringArray built from
optional strings can: every other array in the mapper is built with an absent
null buffer. -/
def arrayHasNull : ArrowArray → Bool
  | .stringArr vals => vals.any (fun v => v.isNone)
  | _ => false

/-- Mirror of arrow RecordBatch: a schema together with one column per field. -/
structure RecordBatch where
  fields : List AField
  cols : List ArrowArray
  deriving DecidableEq

/-- Row count of a batch (row count of its first column, 0 when empty),
matching arrow RecordBatch num_rows for batches built from columns. -/
def RecordBatch.numRows (b : RecordBatch) : Nat :=
  match b.cols with
  | [] => 0
  | c :: _ => arrayNumRows c

/-- All columns share one row count (vacuously true of no columns). -/
def columnsSameLength (cols : List ArrowArray) : Bool :=
  match cols with
  | [] => true
  | c :: rest => rest.all (fun c2 => arrayNumRows c2 == arrayNumRows c)

/-- Mirror of arrow RecordBatch try_new validation: the column count must
match the field count, every column DataType must equal its field DataType
(child fields included), non-nullable fields reject columns with nulls, and
all columns must share one row count. -/
def colCountMsg (c f : Nat) : String :=
  "number of columns(" ++ toString c ++
    ") must match number of fields(" ++ toString f ++ ") in schema"

def recordBatchTryNew (schema : List AField) (cols : List ArrowArray) :
    Except String RecordBatch :=
  if cols.length ≠ schema.length then
    .error (colCountMsg cols.length schema.length)
  else if ¬ (schema.zip cols).all (fun fc => arrayDataType fc.2 == fc.1.dtype) then
    .error "column types must match schema types"
  else if ¬ (schema.zip cols).all (fun fc => fc.1.nullable || !(arrayHasNull fc.2)) then
    .error "non-nullable column contains null values"
  else if ¬ columnsSameLength cols then
    .error "all columns in a record batch must have the same length"
  else
    .ok ⟨schema, cols⟩

/-- Mirror of validate_embeddings in lancedb_client.rs: scan the records in
order and fail on the first whose embedding length is not EMBEDDING_DIM,
with the same error message the Rust format string produces. -/
def invalidDimensionMsg (got : Nat) : String :=
  "Invalid embedding dimension: expected " ++ toString EMBEDDING_DIM ++
    ", got " ++ toString got

def validate_embeddings : List EmbeddingRecord → Except String Unit
  | [] => .ok ()
  | r :: rest =>
    if r.embedding.length ≠ EMBEDDING_DIM.toNat then
      .error (invalidDimensionMsg r.embedding.length)
    else
      validate_embeddings rest

/-- Mirror of extract_embeddings: all embeddings concatenated flat, in record
order. -/
def extract_embeddings (records : List EmbeddingRecord) : List F32 :=
  records.foldl (fun acc r => acc ++ r.embedding) []

/-- Mirror of extract_imported_by: all imported_by values concatenated, with
cumulative offsets starting at 0 and one extra offset per record. -/
def extract_imported_by (records : List EmbeddingRecord) : List String × List Int :=
  records.foldl
    (fun acc r =>
      let vals := acc.1 ++ r.imported_by
      (vals, acc.2 ++ [(vals.length : Int)]))
    ([], [(0 : Int)])

/-- Mirror of create_arrow_arrays: validate, then build the nine column
arrays in source order (path, hash, embedding, language, last_modified,
last_accessed, line_count, imported_by, content_preview).  The embedding
column is built with a nullable child field (Field new item Float32 true in
the source); the imported_by column with a non-nullable child field. -/
def create_arrow_arrays (records : List EmbeddingRecord) :
    Except String (List ArrowArray) :=
  match validate_embeddings records with
  | .error e => .error e
  | .ok _ =>
    .ok [ .stringArr (records.map (fun r => some r.path)),
          .stringArr (records.map (fun r => some r.hash)),
          .fixedSizeListF32 true EMBEDDING_DIM (extract_embeddings records),
          .stringArr (records.map (fun r => some r.language)),
          .timestampArr (records.map (fun r => r.last_modified)),
          .timestampArr (records.map (fun r => r.last_accessed)),
          .int16Arr (records.map (fun r => r.line_count)),
          .listUtf8 false (extract_imported_by records).2 (extract_imported_by records).1,
          .stringArr (records.map (fun r => r.content_preview)) ]

/-- Mirror of create_record_batch: build a RecordBatch from the arrays
against the schema the table reports, wrapping the arrow error. -/
def create_record_batch (tableSchema : List AField) (arrays : List ArrowArray) :
    Except String RecordBatch :=
  match recordBatchTryNew tableSchema arrays with
  | .error e => .error ("Failed to create record batch: " ++ e)
  | .ok b => .ok b

/-- Engine-side table contents at batch granularity: the storage engine holds
the batches appended to it.  For a database created by this repository, the
table schema reported by the engine is build_embeddings_schema. -/
abbrev TableState := List RecordBatch

/-- Mirror of insert_embeddings: no-op success on empty input, otherwise
encode to arrays, build the batch against the table schema, and append it.
Any error is returned before the append step, leaving the table unchanged. -/
def insert_embeddings (tableSchema : List AField) (tbl : TableState)
    (records : List EmbeddingRecord) : Except String TableState :=
  if records.isEmpty then .ok tbl
  else
    match create_arrow_arrays records with
    | .error e => .error e
    | .ok arrays =>
      match create_record_batch tableSchema arrays with
      | .error e => .error e
      | .ok batch => .ok (tbl ++ [batch])

/-- Mirror of the path-mismatch error message in update_embedding. -/
def pathMismatchMsg (p recPath : String) : String :=
  "Path mismatch: method parameter " ++ p ++ " != record.path " ++ recPath

/-- Mirror of update_embedding.  The delete step is an engine call whose
outcome is modelled by the deleteRes argument (the table the engine would
leave on success, or the engine error); the source discards this result
(let underscore binding) and proceeds to insert in every case. -/
def update_embedding (tableSchema : List AField) (tbl : TableState)
    (path : String) (record : EmbeddingRecord)
    (deleteRes : Except String TableState) : Except String TableState :=
  if record.path ≠ path then
    .error (pathMismatchMsg path record.path)
  else
    let tblAfter := match deleteRes with
      | .ok t => t
      | .error _ => tbl
    insert_embeddings tableSchema tblAfter [record]

/-- A concrete valid record, field for field the helper record of the
repository test suite (create_test_record in tests/lancedb_tb.rs) at path
src/main.rs with a 768-dimension embedding. -/
def testRecord : EmbeddingRecord :=
  { path := "src/main.rs",
    hash := "hash_src_main.rs",
    embedding := List.replicate 768 1036831949,
    language := "rust",
    last_modified := 1640995200000,
    last_accessed := 1640995200000,
    line_count := 42,
    imported_by := ["main.rs", "lib.rs"],
    content_preview := some "fn main()" }

/-- Value of a StringArray slot (empty string for a null or absent slot,
as arrow value reads the empty range for a null slot). -/
def stringValueAt (vals : List (Option String)) (i : Nat) : String :=
  (vals.getD i none).getD ""

/-- Null test of a StringArray slot, mirroring is_null. -/
def stringIsNullAt (vals : List (Option String)) (i : Nat) : Bool :=
  (vals.getD i none).isNone

/-- Row slice of a FixedSizeListArray: the i-th size-long window of the flat
value buffer. -/
def fixedSizeListValueAt (sz : Int) (values : List F32) (i : Nat) : List F32 :=
  (values.drop (i * sz.toNat)).take sz.toNat

/-- Row slice of a ListArray: the values between offsets i and i+1. -/
def listValueAt (offsets : List Int) (values : List String) (i : Nat) : List String :=
  (values.drop (offsets.getD i 0).toNat).take
    ((offsets.getD (i + 1) 0).toNat - (offsets.getD i 0).toNat)

/-- Downcast to StringArray; succeeds exactly when the column is one. -/
def castString (a : Option ArrowArray) (msg : String) :
    Except String (List (Option String)) :=
  match a with
  | some (.stringArr vals) => .ok vals
  | _ => .error msg

/-- Downcast to FixedSizeListArray of Float32. -/
def castFixedF32 (a : Option ArrowArray) (msg : String) :
    Except String (Int × List F32) :=
  match a with
  | some (.fixedSizeListF32 _ sz values) => .ok (sz, values)
  | _ => .error msg

/-- Downcast to TimestampMicrosecondArray. -/
def castTimestamp (a : Option ArrowArray) (msg : String) :
    Except String (List Int) :=
  match a with
  | some (.timestampArr vals) => .ok vals
  | _ => .error msg

/-- Downcast to Int16Array. -/
def castInt16 (a : Option ArrowArray) (msg : String) : Except String (List Int) :=
  match a with
  | some (.int16Arr vals) => .ok vals
  | _ => .error msg

/-- Downcast to ListArray of Utf8. -/
def castListUtf8 (a : Option ArrowArray) (msg : String) :
    Except String (List Int × List String) :=
  match a with
  | some (.listUtf8 _ offsets values) => .ok (offsets, values)
  | _ => .error msg

/-- Mirror of record_batch_to_embedding_record: bounds check, then read each
column positionally (0 path, 1 hash, 2 embedding, 3 language, 4
last_modified, 5 last_accessed, 6 line_count, 7 imported_by, 8
content_preview), failing when a downcast does not match.  A null
content_preview slot decodes to none, a present one to some value. -/
def record_batch_to_embedding_record (batch : RecordBatch) (row_index : Nat) :
    Except String EmbeddingRecord :=
  if row_index ≥ batch.numRows then
    .error ("Row index " ++ toString row_index ++ " out of bounds")
  else do
    let pathVals ← castString (batch.cols.get? 0) "Failed to cast path column"
    let hashVals ← castString (batch.cols.get? 1) "Failed to cast hash column"
    let emb ← castFixedF32 (batch.cols.get? 2) "Failed to cast embedding column"
    let langVals ← castString (batch.cols.get? 3) "Failed to cast language column"
    let lmVals ← castTimestamp (batch.cols.get? 4) "Failed to cast last_modified column"
    let laVals ← castTimestamp (batch.cols.get? 5) "Failed to cast last_accessed column"
    let lcVals ← castInt16 (batch.cols.get? 6) "Failed to cast line_count column"
    let ib ← castListUtf8 (batch.cols.get? 7) "Failed to cast imported_by column"
    let cpVals ← castString (batch.cols.get? 8) "Failed to cast content_preview column"
    .ok { path := stringValueAt pathVals row_index,
          hash := stringValueAt hashVals row_index,
          embedding := fixedSizeListValueAt emb.1 emb.2 row_index,
          language := stringValueAt langVals row_index,
          last_modified := lmVals.getD row_index 0,
          last_accessed := laVals.getD row_index 0,
          line_count := lcVals.getD row_index 0,
          imported_by := listValueAt ib.1 ib.2 row_index,
          content_preview :=
            if stringIsNullAt cpVals row_index then none
            else some (stringValueAt cpVals row_index) }

/-- Mirror of the stream consumption in get_embedding: the source polls the
stream exactly once; when a first batch arrives with a positive row count it
decodes row 0, otherwise it returns none without polling further batches. -/
def get_embedding_from_stream (stream : List RecordBatch) :
    Except String (Option EmbeddingRecord) :=
  match stream with
  | [] => .ok none
  | b :: _ =>
    if b.numRows > 0 then (record_batch_to_embedding_record b 0).map some
    else .ok none

/-- Decode the given row indices of one batch in order, stopping at the
first failing row, as the source row loop does. -/
def decodeRowsAux (b : RecordBatch) : List Nat → Except String (List EmbeddingRecord)
  | [] => .ok []
  | i :: rest =>
    match record_batch_to_embedding_record b i with
    | .error e => .error e
    | .ok r =>
      match decodeRowsAux b rest with
      | .error e => .error e
      | .ok rs => .ok (r :: rs)

/-- Decode every row of one batch, in order. -/
def decodeBatchRows (b : RecordBatch) : Except String (List EmbeddingRecord) :=
  decodeRowsAux b (List.range b.numRows)

/-- Mirror of the stream consumption in query_similar: loop over every batch
of the stream and every row of every batch. -/
def decodeAllBatches (batches : List RecordBatch) :
    Except String (List EmbeddingRecord) :=
  match batches with
  | [] => .ok []
  | b :: rest =>
    match decodeBatchRows b with
    | .error e => .error e
    | .ok rs =>
      match decodeAllBatches rest with
      | .error e => .error e
      | .ok rest2 => .ok (rs ++ rest2)

/-- Mirror of query_similar.  The engine vector search is external; it is
modelled by the search argument mapping the requested row limit to the
stream of batches the engine returns.  The dimension check precedes any
engine interaction. -/
def query_similar (embedding : List F32) (limit : Nat)
    (search : Nat → List RecordBatch) : Except String (List EmbeddingRecord) :=
  if embedding.length ≠ EMBEDDING_DIM.toNat then
    .error (invalidDimensionMsg embedding.length)
  else
    decodeAllBatches (search limit)

/-- Mirror of the not-found error message in query_similar_to_file. -/
def noEmbeddingMsg (p : String) : String := "No embedding found for file: " ++ p

/-- Mirror of query_similar_to_file: resolve the path through the exact-match
stream, fail when absent, search with limit + 1, keep only rows whose path
differs from the queried path, truncate to limit. -/
def query_similar_to_file (getStream : List RecordBatch)
    (search : Nat → List RecordBatch) (file_path : String) (limit : Nat) :
    Except String (List EmbeddingRecord) :=
  match get_embedding_from_stream getStream with
  | .error e => .error e
  | .ok none => .error (noEmbeddingMsg file_path)
  | .ok (some fr) =>
    match query_similar fr.embedding (limit + 1) search with
    | .error e => .error e
    | .ok sims =>
      .ok ((sims.filter (fun r => decide (r.path ≠ file_path))).take limit)

/-- The single-quote character, written by code point to keep source plain. -/
def squote : Char := Char.ofNat 39

/-- Mirror of path.replace in delete_embedding and get_embedding: every
single quote becomes two single quotes. -/
def escQuotes : List Char → List Char
  | [] => []
  | c :: r => if c = squote then squote :: squote :: escQuotes r else c :: escQuotes r

/-- Engine-side scan of a single-quoted SQL literal body: reads until the
closing quote, turning each doubled quote into one literal quote; the
closing quote must end the filter string.  Modelled from the spec: the
storage engine matches filter literals with standard SQL quoting. -/
def scanLit : List Char → Option (List Char)
  | [] => none
  | c :: r =>
    if c = squote then
      match r with
      | [] => some []
      | c2 :: r2 =>
        if c2 = squote then (scanLit r2).map (fun t => squote :: t) else none
    else
      (scanLit r).map (fun t => c :: t)

/-- The exact character sequence the source format string produces for the
path filter: the text path, space, equals, space, then the quoted escaped
path. -/
def pathFilterChars (p : List Char) : List Char :=
  ['p', 'a', 't', 'h', ' ', '=', ' '] ++ squote :: (escQuotes p ++ [squote])

/-- The filter string passed to the engine by delete_embedding and
get_embedding. -/
def pathFilterStr (p : String) : String := String.mk (pathFilterChars p.data)

/-- Engine-side parse of a path equality filter.  Modelled from the spec:
the engine supports delete rows matching a filter expression, with literals
read under SQL quoting. -/
def parseFilterChars : List Char → Option (List Char)
  | 'p' :: 'a' :: 't' :: 'h' :: ' ' :: '=' :: ' ' :: c :: rest =>
    if c = squote then scanLit rest else none
  | _ => none

/-- Whether a stored row matches a path equality filter string. -/
def engineRowMatches (filter : String) (r : EmbeddingRecord) : Bool :=
  match parseFilterChars filter.data with
  | some lit => decide (r.path.data = lit)
  | none => false

/-- Mirror of delete_embedding over the engine rows: the engine removes all
rows matching the filter string built from the escaped path. -/
def delete_embedding (tbl : List EmbeddingRecord) (path : String) :
    List EmbeddingRecord :=
  tbl.filter (fun r => !(engineRowMatches (pathFilterStr path) r))

/-- Mirror of get_embedding over the engine rows: the engine returns the rows
matching the same filter string, limited to one; the client returns the
first such row, stored fields verbatim. -/
def get_embedding_by_path (tbl : List EmbeddingRecord) (path : String) :
    Option EmbeddingRecord :=
  ((tbl.filter (fun r => engineRowMatches (pathFilterStr path) r)).take 1).head?

/-- Mirror of MAX_LEN in embedder.rs. -/
def MAX_LEN : Nat := 768

/-- Number of elements a shape describes. -/
def shapeSize (shape : List Nat) : Nat := shape.foldl (fun a b => a * b) 1

/-- Error text for a shape and data length disagreement. -/
def shapeErrMsg (expected got : Nat) : String :=
  "ShapeError: shape requires " ++ toString expected ++
    " elements, data has " ++ toString got

/-- Mirror of Array from_shape_vec in ndarray: succeeds exactly when the
data length equals the number of elements the shape describes. -/
def from_shape_vec (shape : List Nat) (data : List Int) :
    Except String (List Nat × List Int) :=
  if data.length = shapeSize shape then .ok (shape, data)
  else .error (shapeErrMsg (shapeSize shape) data.length)

/-- Mirror of the task-marker prepend in embed: the fixed marker text is
concatenated in front of the prompt before tokenization. -/
def embed_prompt (prompt : String) : String := "<encoder-only>" ++ prompt

/-- Mirror of the tensor-preparation portion of embed, as a function of the
token encoding the external tokenizer returned: seq_len is the token count
clamped at MAX_LEN, and both tensors are built with shape batch 1 by seq_len
from the full (unsliced) id and mask vectors. -/
def embed_prepare_tensors (input_ids attention_mask : List Int) :
    Except String ((List Nat × List Int) × (List Nat × List Int)) :=
  let seq_len := min input_ids.length MAX_LEN
  match from_shape_vec [1, seq_len] input_ids with
  | .error e => .error e
  | .ok t1 =>
    match from_shape_vec [1, seq_len] attention_mask with
    | .error e => .error e
    | .ok t2 => .ok (t1, t2)

/-- Mirror of the output portion of embed, as a function of the shape and
flat data of the first output tensor the external model returned: rebuild
the dynamic array (which requires the element count to match the shape) and
flatten it in row-major order, which returns the flat data unchanged. -/
def embed_extract_output (shape : List Nat) (data : List F32) :
    Except String (List F32) :=
  if data.length = shapeSize shape then .ok data
  else .error (shapeErrMsg (shapeSize shape) data.length)

/-- A batch holding exactly the columns the mapper would produce for one
record, as an externally-created nine-column table would return it. -/
def singleRowBatch (r : EmbeddingRecord) : RecordBatch :=
  ⟨[], [ .stringArr [some r.path],
         .stringArr [some r.hash],
         .fixedSizeListF32 true EMBEDDING_DIM r.embedding,
         .stringArr [some r.language],
         .timestampArr [r.last_modified],
         .timestampArr [r.last_accessed],
         .int16Arr [r.line_count],
         .listUtf8 false [0, (r.imported_by.length : Int)] r.imported_by,
         .stringArr [r.content_preview] ]⟩

/-- A zero-row page, as a lazily-paginated engine may emit before a page
holding the data. -/
def emptyBatch : RecordBatch := ⟨[], [.stringArr []]⟩

/-- A record with an invalid (length 2) embedding. -/
def badRec : EmbeddingRecord :=
  { path := "src/bad.rs",
    hash := "h",
    embedding := [0, 0],
    language := "rust",
    last_modified := 0,
    last_accessed := 0,
    line_count := 1,
    imported_by := [],
    content_preview := none }

/-- A second valid record at another path with an embedding identical to
testRecord (the all-identical-embeddings scenario). -/
def otherRec : EmbeddingRecord :=
  { testRecord with path := "src/lib.rs", hash := "hash_src_lib.rs" }

/-- The replacement record of the repository update test: same path, new
hash, line count and preview. -/
def updatedRecord : EmbeddingRecord :=
  { testRecord with
      hash := "updated_hash_123",
      line_count := 99,
      content_preview := some "fn updated()" }

/-- A path containing a single quote, the apostrophe scenario of the spec. -/
def aposPath : String := "src/file" ++ String.singleton squote ++ "s.rs"

/-- A record stored at the apostrophe path. -/
def aposRec : EmbeddingRecord := { testRecord with path := aposPath }

/-
  Helper lemmas (shared across the claim theorems below).
-/

theorem take_one_head {α : Type} (l : List α) : (l.take 1).head? = l.head? := by
  cases l <;> rfl

theorem filter_pred_ext {α : Type} (f g : α → Bool) (l : List α)
    (h : ∀ a, f a = g a) : l.filter f = l.filter g := by
  induction l with
  | nil => rfl
  | cons a t ih => simp [List.filter, h a, ih]

theorem decodeRowsAux_length (b : RecordBatch) (idxs : List Nat)
    (rs : List EmbeddingRecord) (h : decodeRowsAux b idxs = .ok rs) :
    rs.length = idxs.length := by
  induction idxs generalizing rs with
  | nil =>
    simp [decodeRowsAux] at h
    simp [h.symm]
  | cons i rest ih =>
    unfold decodeRowsAux at h
    cases hd : record_batch_to_embedding_record b i with
    | error e => rw [hd] at h; exact absurd h (by simp)
    | ok r =>
      rw [hd] at h
      cases ht : decodeRowsAux b rest with
      | error e => rw [ht] at h; exact absurd h (by simp)
      | ok rs2 =>
        rw [ht] at h
        have hr : rs = r :: rs2 := by
          cases h; rfl
        subst hr
        simp [ih rs2 ht]

theorem decodeAllBatches_length (batches : List RecordBatch)
    (l : List EmbeddingRecord) (h : decodeAllBatches batches = .ok l) :
    l.length = (batches.map RecordBatch.numRows).sum := by
  induction batches generalizing l with
  | nil =>
    simp [decodeAllBatches] at h
    simp [h.symm]
  | cons b rest ih =>
    unfold decodeAllBatches at h
    cases hb : decodeBatchRows b with
    | error e => rw [hb] at h; exact absurd h (by simp)
    | ok rs =>
      rw [hb] at h
      cases ht : decodeAllBatches rest with
      | error e => rw [ht] at h; exact absurd h (by simp)
      | ok l2 =>
        rw [ht] at h
        have hl : l = rs ++ l2 := by cases h; rfl
        subst hl
        have h1 : rs.length = b.numRows := by
          have := decodeRowsAux_length b (List.range b.numRows) rs hb
          simpa using this
        simp [h1, ih l2 ht]

theorem validate_embeddings_cons_bad (r : EmbeddingRecord)
    (rest : List EmbeddingRecord)
    (h : r.embedding.length ≠ EMBEDDING_DIM.toNat) :
    validate_embeddings (r :: rest) = .error (invalidDimensionMsg r.embedding.length) := by
  simp [validate_embeddings, h]

theorem validate_embeddings_cons_ok (r : EmbeddingRecord)
    (rest : List EmbeddingRecord)
    (h : r.embedding.length = EMBEDDING_DIM.toNat) :
    validate_embeddings (r :: rest) = validate_embeddings rest := by
  simp [validate_embeddings, h]

theorem validate_embeddings_bad (records : List EmbeddingRecord)
    (h : ∃ r ∈ records, r.embedding.length ≠ EMBEDDING_DIM.toNat) :
    ∃ n, n ≠ EMBEDDING_DIM.toNat ∧
      validate_embeddings records = .error (invalidDimensionMsg n) := by
  induction records with
  | nil => exact absurd h (by simp)
  | cons a rest ih =>
    by_cases ha : a.embedding.length = EMBEDDING_DIM.toNat
    · have h2 : ∃ r ∈ rest, r.embedding.length ≠ EMBEDDING_DIM.toNat := by
        obtain ⟨r, hr, hlen⟩ := h
        rcases List.mem_cons.mp hr with he | ht
        · exact absurd (he ▸ ha) hlen
        · exact ⟨r, ht, hlen⟩
      obtain ⟨n, hn, hv⟩ := ih h2
      exact ⟨n, hn, by rw [validate_embeddings_cons_ok a rest ha, hv]⟩
    · exact ⟨a.embedding.length, ha, validate_embeddings_cons_bad a rest ha⟩

theorem create_arrow_arrays_count (records : List EmbeddingRecord)
    (hv : validate_embeddings records = .ok ()) :
    Except.map List.length (create_arrow_arrays records) = .ok 9 := by
  simp [create_arrow_arrays, hv, Except.map]

theorem insert_single_always_errors (tbl : TableState) (rec : EmbeddingRecord) :
    ∃ msg, insert_embeddings build_embeddings_schema tbl [rec] = .error msg := by
  by_cases h : rec.embedding.length = EMBEDDING_DIM.toNat
  · have hv : validate_embeddings [rec] = .ok () := by
      simp [validate_embeddings, h]
    refine ⟨"Failed to create record batch: " ++ colCountMsg 9 8, ?_⟩
    simp [insert_embeddings, create_arrow_arrays, hv, create_record_batch,
      recordBatchTryNew, build_embeddings_schema]
  · have hv := validate_embeddings_cons_bad rec [] h
    refine ⟨invalidDimensionMsg rec.embedding.length, ?_⟩
    simp [insert_embeddings, create_arrow_arrays, hv]

theorem scanLit_escQuotes (p : List Char) :
    scanLit (escQuotes p ++ [squote]) = some p := by
  induction p with
  | nil => simp [escQuotes, scanLit]
  | cons c r ih =>
    by_cases hc : c = squote
    · subst hc
      simp [escQuotes, scanLit, ih]
    · have he : escQuotes (c :: r) = c :: escQuotes r := by
        simp [escQuotes, hc]
      rw [he, List.cons_append]
      cases hsplit : escQuotes r ++ [squote] with
      | nil => exact absurd hsplit (by simp)
      | cons d L =>
        rw [hsplit] at ih
        simp [scanLit, hc, ih]

theorem engineRowMatches_pathFilter (p : String) (r : EmbeddingRecord) :
    engineRowMatches (pathFilterStr p) r = decide (r.path = p) := by
  have hparse : parseFilterChars (pathFilterChars p.data) = some p.data := by
    simp [pathFilterChars, parseFilterChars, scanLit_escQuotes]
  have hdata : (pathFilterStr p).data = pathFilterChars p.data := rfl
  rw [engineRowMatches, hdata, hparse]
  exact decide_eq_decide.mpr (by
    constructor
    · intro hd
      calc r.path = String.mk r.path.data := rfl
        _ = String.mk p.data := by rw [hd]
        _ = p := rfl
    · intro he; rw [he])

/-
  Claim theorems.
-/

/-- C1: the insert-then-get round trip is broken in the code.  Evaluated at a
concrete valid record (768-dimension embedding, some content_preview,
non-empty imported_by): insert_embeddings against the schema the repository
creates fails at batch creation, because the mapper builds nine columns
while the table schema declares eight fields, so get-by-path can never
return the inserted record. -/
theorem c1_insert_get_roundtrip_broken :
    testRecord.embedding.length = EMBEDDING_DIM.toNat ∧
    insert_embeddings build_embeddings_schema [] [testRecord] =
      .error ("Failed to create record batch: " ++ colCountMsg 9 8) := by
  decide

/-- C2: the stored schema does not agree with the mapper.  The schema built
by schema.rs has eight columns (content_preview is missing) and declares the
embedding child field non-nullable, while create_arrow_arrays encodes nine
columns and a nullable embedding child; the claimed nine-column agreement
fails. -/
theorem c2_schema_width_mismatch :
    build_embeddings_schema.length = 8 ∧
    Except.map List.length (create_arrow_arrays [testRecord]) = .ok 9 ∧
    Except.map (fun arrays => (arrays.get? 2).map arrayDataType)
        (create_arrow_arrays [testRecord]) =
      .ok (some (.fixedSizeList "item" .float32 true EMBEDDING_DIM)) ∧
    (build_embeddings_schema.get? 2).map (fun f => f.dtype) =
      some (.fixedSizeList "item" .float32 false EMBEDDING_DIM) := by
  refine ⟨rfl, ?_, ?_, rfl⟩ <;> decide

/-- C3: a batch holding any record of wrong embedding dimension is rejected
with the dimension error before any batch is built or appended, so the table
value is unchanged (the operation returns no new table), and query_similar
rejects a wrong-dimension query vector with the dimension error before any
engine interaction. -/
theorem c3_dimension_error_rejects_before_write :
    ∀ (tableSchema : List AField) (tbl : TableState)
      (records : List EmbeddingRecord) (v : List F32) (lim : Nat)
      (search : Nat → List RecordBatch),
      ((∃ r ∈ records, r.embedding.length ≠ EMBEDDING_DIM.toNat) →
        ∃ n, n ≠ EMBEDDING_DIM.toNat ∧
          insert_embeddings tableSchema tbl records =
            .error (invalidDimensionMsg n)) ∧
      (v.length ≠ EMBEDDING_DIM.toNat →
        query_similar v lim search = .error (invalidDimensionMsg v.length)) := by
  intro ts tbl records v lim search
  constructor
  · intro h
    obtain ⟨n, hn, hval⟩ := validate_embeddings_bad records h
    refine ⟨n, hn, ?_⟩
    cases records with
    | nil =>
      obtain ⟨r, hr, _⟩ := h
      exact absurd hr (by simp)
    | cons a rest =>
      simp [insert_embeddings, create_arrow_arrays, hval]
  · intro h
    simp [query_similar, h]

/-- Witness for C3 at concrete inputs: a single record with a length-2
embedding is rejected by insert with the dimension error, and a length-1
query vector is rejected by query_similar. -/
theorem c3_dimension_error_rejects_before_write_witness :
    (∃ n, n ≠ EMBEDDING_DIM.toNat ∧
      insert_embeddings build_embeddings_schema [] [badRec] =
        .error (invalidDimensionMsg n)) ∧
    query_similar [0] 5 (fun _ => []) = .error (invalidDimensionMsg 1) := by
  constructor
  · exact (c3_dimension_error_rejects_before_write build_embeddings_schema []
      [badRec] [0] 5 (fun _ => [])).1 ⟨badRec, by simp, by decide⟩
  · exact (c3_dimension_error_rejects_before_write build_embeddings_schema []
      [badRec] [0] 5 (fun _ => [])).2 (by decide)

/-- C4: the truncation the claim describes is missing.  For a tokenization of
769 tokens (over MAX_LEN), the code clamps only the shape to 768 while
passing the full 769-element id and mask vectors, so tensor construction
fails with a shape error instead of succeeding on truncated input. -/
theorem c4_truncation_missing_shape_error :
    (List.replicate 769 (0 : Int)).length > MAX_LEN ∧
    embed_prepare_tensors (List.replicate 769 (0 : Int))
        (List.replicate 769 (1 : Int)) =
      .error (shapeErrMsg 768 769) := by
  constructor
  · simp [MAX_LEN]
  · decide

/-- C5 counterexample: embed succeeds and returns a vector whose length is
not 768 when the encoder output tensor holds a different element count (here
a shape 1 by 2 tensor), so the returned length is not independent of the
output tensor shape. -/
theorem c5_embed_output_length_not_768 :
    embed_extract_output [1, 2] [5, 6] = .ok [5, 6] ∧
    ([5, 6] : List F32).length ≠ EMBEDDING_DIM.toNat := by
  decide

/-- C5 amended: embed returns the flattened output tensor data unchanged, so
the result length equals the element count of the encoder output tensor
(the product of its shape dimensions); it is 768 exactly when the encoder
emits 768 elements, which the code does not check. -/
theorem c5_embed_returns_flattened_tensor :
    ∀ (shape : List Nat) (data : List F32),
      data.length = shapeSize shape →
      embed_extract_output shape data = .ok data := by
  intro shape data h
  simp [embed_extract_output, h]

/-- Witness for the amended C5: a shape 1 by 768 output flattens to its 768
data elements. -/
theorem c5_embed_returns_flattened_tensor_witness :
    embed_extract_output [1, 768] (List.replicate 768 (0 : F32)) =
      .ok (List.replicate 768 (0 : F32)) :=
  c5_embed_returns_flattened_tensor [1, 768] (List.replicate 768 0) (by decide)

/-- C6 counterexample: a stream whose first batch has zero rows and whose
second batch holds the matching, fully decodable record makes get_embedding
return none — the source polls the stream once instead of draining it. -/
theorem c6_get_embedding_misses_later_batch :
    get_embedding_from_stream [emptyBatch, singleRowBatch testRecord] = .ok none ∧
    RecordBatch.numRows (singleRowBatch testRecord) = 1 ∧
    record_batch_to_embedding_record (singleRowBatch testRecord) 0 = .ok testRecord := by
  refine ⟨rfl, rfl, ?_⟩
  decide

/-- C6 amended: query_similar drains the whole stream (a successful decode
yields exactly one record per row of every batch), but get_embedding reads
only the first batch: whenever that batch has zero rows it returns none
without polling the rest of the stream. -/
theorem c6_query_drains_get_reads_first_batch_only :
    ∀ (batches : List RecordBatch) (l : List EmbeddingRecord)
      (b : RecordBatch) (rest : List RecordBatch),
      (decodeAllBatches batches = .ok l →
        l.length = (batches.map RecordBatch.numRows).sum) ∧
      (b.numRows = 0 → get_embedding_from_stream (b :: rest) = .ok none) := by
  intro batches l b rest
  constructor
  · exact decodeAllBatches_length batches l
  · intro h
    simp [get_embedding_from_stream, h]

/-- Witness for the amended C6 at concrete inputs: a one-batch stream decodes
to one record per row, and a zero-row first page makes get_embedding return
none regardless of the later page. -/
theorem c6_query_drains_get_reads_first_batch_only_witness :
    ([testRecord] : List EmbeddingRecord).length =
      (([singleRowBatch testRecord] : List RecordBatch).map RecordBatch.numRows).sum ∧
    get_embedding_from_stream (emptyBatch :: [singleRowBatch testRecord]) = .ok none := by
  constructor
  · exact (c6_query_drains_get_reads_first_batch_only [singleRowBatch testRecord]
      [testRecord] emptyBatch [singleRowBatch testRecord]).1 (by decide)
  · exact (c6_query_drains_get_reads_first_batch_only [singleRowBatch testRecord]
      [testRecord] emptyBatch [singleRowBatch testRecord]).2 rfl

theorem query_similar_to_file_some_step (gs : List RecordBatch)
    (search : Nat → List RecordBatch) (p : String) (lim : Nat)
    (fr : EmbeddingRecord)
    (hg : get_embedding_from_stream gs = .ok (some fr)) :
    query_similar_to_file gs search p lim =
      (match query_similar fr.embedding (lim + 1) search with
       | .error e => .error e
       | .ok sims =>
         .ok ((sims.filter (fun r => decide (r.path ≠ p))).take lim)) := by
  unfold query_similar_to_file
  rw [hg]

/-- C7: query_similar_to_file fails with the not-found error when the path
resolves to no stored embedding, and any successful result has at most limit
elements and never contains the queried path (the source fetches limit + 1
candidates, removes rows with the queried path, and truncates to limit),
for every engine response, including all-identical stored embeddings. -/
theorem c7_query_similar_to_file_contract :
    ∀ (getStream : List RecordBatch) (search : Nat → List RecordBatch)
      (p : String) (lim : Nat),
      (get_embedding_from_stream getStream = .ok none →
        query_similar_to_file getStream search p lim = .error (noEmbeddingMsg p)) ∧
      (∀ l, query_similar_to_file getStream search p lim = .ok l →
        l.length ≤ lim ∧ ∀ r ∈ l, r.path ≠ p) := by
  intro gs search p lim
  constructor
  · intro h
    simp [query_similar_to_file, h]
  · intro l hl
    cases hg : get_embedding_from_stream gs with
    | error e =>
      unfold query_similar_to_file at hl
      rw [hg] at hl
      exact absurd hl (by simp)
    | ok o =>
      cases o with
      | none =>
        unfold query_similar_to_file at hl
        rw [hg] at hl
        exact absurd hl (by simp)
      | some fr =>
        rw [query_similar_to_file_some_step gs search p lim fr hg] at hl
        cases hq : query_similar fr.embedding (lim + 1) search with
        | error e =>
          rw [hq] at hl
          exact absurd hl (by simp)
        | ok sims =>
          rw [hq] at hl
          have hl3 : Except.ok ((sims.filter
              (fun r => decide (r.path ≠ p))).take lim) = Except.ok l := hl
          injection hl3 with hl2
          subst hl2
          constructor
          · exact List.length_take_le lim _
          · intro r hr
            have hrf := List.mem_filter.mp (List.take_subset _ _ hr)
            exact of_decide_eq_true hrf.2

/-- Witness for C7 at concrete inputs: an empty get stream yields the
not-found error, and with two stored records holding identical embeddings
the result for limit 1 excludes the queried path and has one element. -/
theorem c7_query_similar_to_file_contract_witness :
    query_similar_to_file [] (fun _ => []) "src/x.rs" 5 =
      .error (noEmbeddingMsg "src/x.rs") ∧
    (([otherRec] : List EmbeddingRecord).length ≤ 1 ∧
      ∀ r ∈ ([otherRec] : List EmbeddingRecord), r.path ≠ "src/main.rs") := by
  constructor
  · exact (c7_query_similar_to_file_contract [] (fun _ => []) "src/x.rs" 5).1 rfl
  · exact (c7_query_similar_to_file_contract [singleRowBatch testRecord]
      (fun _ => [singleRowBatch testRecord, singleRowBatch otherRec])
      "src/main.rs" 1).2 [otherRec] (by decide)

/-- C8: the replacement promised by the claim is never stored.  Evaluated at
the repository update scenario (matching path, valid replacement record,
delete step succeeding): update_embedding fails at the insert step with the
batch-creation error, because the mapper's nine columns cannot match the
eight-field table schema, so a subsequent get cannot reflect the
replacement fields. -/
theorem c8_update_replacement_never_stored :
    updatedRecord.path = "src/main.rs" ∧
    update_embedding build_embeddings_schema [singleRowBatch testRecord]
        "src/main.rs" updatedRecord (.ok []) =
      .error ("Failed to create record batch: " ++ colCountMsg 9 8) := by
  decide

/-- C9: the quote escaping makes filters match the path literally.  Under
the engine's SQL-literal filter semantics, delete_embedding removes exactly
the rows whose stored path equals the given string, and get-by-path returns
the first row with exactly that path, stored path string verbatim, for
every path including ones holding quote characters. -/
theorem c9_path_escaping_literal_match :
    ∀ (tbl : List EmbeddingRecord) (p : String),
      delete_embedding tbl p = tbl.filter (fun r => decide (r.path ≠ p)) ∧
      get_embedding_by_path tbl p =
        (tbl.filter (fun r => decide (r.path = p))).head? := by
  intro tbl p
  constructor
  · unfold delete_embedding
    apply filter_pred_ext
    intro a
    rw [engineRowMatches_pathFilter p a]
    by_cases h : a.path = p
    · simp [h]
    · simp [h]
  · unfold get_embedding_by_path
    rw [take_one_head]
    congr 1
    apply filter_pred_ext
    intro a
    exact engineRowMatches_pathFilter p a

/-- The spec's apostrophe scenario, concretely: a record stored at a path
holding a single quote is found by get at that exact path, with the path
returned unescaped, and delete at that path removes it. -/
theorem apostrophe_path_literal_example :
    get_embedding_by_path [aposRec] aposPath = some aposRec ∧
    delete_embedding [aposRec] aposPath = [] := by
  decide

/-- C10 counterexample: even when the delete step fails while a matching row
is present, update_embedding returns an error (the insert step cannot
succeed against the eight-field schema), so it cannot return success with
both rows remaining as the claim states. -/
theorem c10_update_errors_even_after_failed_delete :
    update_embedding build_embeddings_schema [singleRowBatch testRecord]
        "src/main.rs" testRecord (.error "engine delete failure") =
      .error ("Failed to create record batch: " ++ colCountMsg 9 8) := by
  decide

/-- C10 amended: update_embedding does discard every failure of the delete
step and proceeds to the insert of the replacement record on the unchanged
table; but the insert step itself always fails against the schema the
repository creates, so update returns an error rather than success for
every delete outcome. -/
theorem c10_update_ignores_delete_result_but_insert_fails :
    ∀ (tbl : TableState) (p : String) (rec : EmbeddingRecord) (e : String)
      (dres : Except String TableState),
      (rec.path = p →
        update_embedding build_embeddings_schema tbl p rec (.error e) =
          insert_embeddings build_embeddings_schema tbl [rec]) ∧
      (rec.path = p →
        ∃ msg, update_embedding build_embeddings_schema tbl p rec dres =
          .error msg) := by
  intro tbl p rec e dres
  constructor
  · intro h
    simp [update_embedding, h]
  · intro h
    cases dres with
    | ok t =>
      obtain ⟨msg, hm⟩ := insert_single_always_errors t rec
      exact ⟨msg, by simp [update_embedding, h, hm]⟩
    | error e2 =>
      obtain ⟨msg, hm⟩ := insert_single_always_errors tbl rec
      exact ⟨msg, by simp [update_embedding, h, hm]⟩

/-- Witness for the amended C10 at concrete inputs: a failed delete is
ignored (update equals plain insert of the replacement), and with a
successful delete the update still returns an error. -/
theorem c10_update_ignores_delete_result_but_insert_fails_witness :
    update_embedding build_embeddings_schema [] "src/main.rs" testRecord
        (.error "io error") =
      insert_embeddings build_embeddings_schema [] [testRecord] ∧
    ∃ msg, update_embedding build_embeddings_schema [] "src/main.rs" testRecord
        (.ok []) = .error msg := by
  constructor
  · exact (c10_update_ignores_delete_result_but_insert_fails [] "src/main.rs"
      testRecord "io error" (.ok [])).1 rfl
  · exact (c10_update_ignores_delete_result_but_insert_fails [] "src/main.rs"
      testRecord "io error" (.ok [])).2 rfl
